import Mathlib

/-!
Verification of the ahoi event pipeline against its natural-language
specification.

The repository splits into an Expo/TypeScript frontend (present under
`src/app`, notably `app/lib/api.ts` and `app/(tabs)/sources.tsx`) and a
FastAPI backend (deduplicator / validator / upsert) that is documented in the
repository but whose Python sources are not part of the checked tree.  The
frontend functions (`normalizeCategory`, `toEvent`, `buildQuery`,
`discoverEventsWithGemini`, `normalizeUrl`) are embedded here directly from
the TypeScript source.  The backend identity / validation / upsert pipeline
is modelled from the specification text, as flagged on each such definition.
-/

namespace Ahoi

/-- Lower-casing as used by the sources (`String.prototype.toLowerCase` /
`str.lower()`), restricted to ASCII; written over the character list so
that the kernel can evaluate it on concrete inputs. -/
def toLowerCase (s : String) : String :=
  ⟨s.data.map Char.toLower⟩

/-- Whitespace trimming at both ends (`String.prototype.trim` / Python
`strip`); written over the character list so that the kernel can evaluate
it on concrete inputs. -/
def trimString (s : String) : String :=
  ⟨((s.data.dropWhile Char.isWhitespace).reverse.dropWhile Char.isWhitespace).reverse⟩

/-! ## Embedding of `app/lib/api.ts` -/

namespace Api

/-- Wrapper for a JavaScript `Date` built by `new Date(raw)`.  The claims
under verification never inspect the parsed date value, so the wrapper
keeps the raw string it was constructed from. -/
structure JsDate where
  raw : String
deriving DecidableEq, Repr

/-- The `ApiEvent` payload shape of `app/lib/api.ts` (snake_case wire format).
Optional / nullable fields become `Option`; `undefined` and `null` both map
to `none`, mirroring the `??` operator which treats them alike.
Coordinates are carried opaquely (no claim inspects them). -/
structure ApiEvent where
  id : String
  source_id : Option String
  title : String
  description : Option String
  date_start : String
  date_end : Option String
  location_name : Option String
  location_address : Option String
  location_district : Option String
  location_lat : Option Int
  location_lng : Option Int
  category : Option String
  is_indoor : Bool
  age_suitability : Option String
  price_info : Option String
  original_link : Option String
  region : Option String
deriving Repr

/-- The frontend `Location` type of `app/types/event.ts`. -/
structure Location where
  name : String
  address : String
  district : Option String
  lat : Option Int
  lng : Option Int
deriving Repr

/-- The frontend `Event` type of `app/types/event.ts` (camelCase). -/
structure Event where
  id : String
  sourceId : String
  title : String
  description : String
  dateStart : JsDate
  dateEnd : Option JsDate
  location : Location
  category : String
  isIndoor : Bool
  ageSuitability : String
  priceInfo : String
  originalLink : String
  region : String
deriving Repr

/-- The `validCategories` constant of `app/lib/api.ts`. -/
def validCategories : List String :=
  ["theater", "outdoor", "museum", "music", "sport", "market", "kreativ", "lesen"]

/-- Embedding of `normalizeCategory` from `app/lib/api.ts`.  The JavaScript
guard `if (!category) return 'outdoor'` is truthy on `undefined`, `null`
and the empty string, hence the explicit empty-string branch.  Lower-casing
is `String.prototype.toLowerCase`, embedded as the ASCII `toLowerCase`
(every enumeration member is pure ASCII). -/
def normalizeCategory (category : Option String) : String :=
  match category with
  | none => "outdoor"
  | some s =>
      if s = "" then "outdoor"
      else
        let lowered := toLowerCase s
        if lowered ∈ validCategories then lowered else "outdoor"

/-- Embedding of `toEvent` from `app/lib/api.ts`: maps the snake_case wire
payload to the camelCase frontend record.  Each `x ?? d` becomes
`Option.getD`; the truthiness test `event.date_end ? ... : undefined`
is falsy on the empty string, hence the extra branch. -/
def toEvent (event : ApiEvent) : Event :=
  { id := event.id
    sourceId := event.source_id.getD ""
    title := event.title
    description := event.description.getD ""
    dateStart := ⟨event.date_start⟩
    dateEnd :=
      match event.date_end with
      | none => none
      | some s => if s = "" then none else some ⟨s⟩
    location :=
      { name := event.location_name.getD "Unbekannter Ort"
        address := event.location_address.getD ""
        district := event.location_district
        lat := event.location_lat
        lng := event.location_lng }
    category := normalizeCategory event.category
    isIndoor := event.is_indoor
    ageSuitability := event.age_suitability.getD "k.A."
    priceInfo := event.price_info.getD "k.A."
    originalLink := event.original_link.getD ""
    region := event.region.getD "hamburg" }

/-! ### `buildQuery` -/

/-- A JavaScript value as it can appear in the parameter records passed to
`buildQuery` (strings, numbers, booleans, `undefined`, `null`). -/
inductive JsVal where
  | undef
  | null
  | str (s : String)
  | num (n : Int)
  | bool (b : Bool)
deriving DecidableEq, Repr

/-- The skip test of `buildQuery`:
`value === undefined || value === null || value === ''`. -/
def JsVal.isSkipped : JsVal → Bool
  | .undef => true
  | .null => true
  | .str s => s = ""
  | .num _ => false
  | .bool _ => false

/-- JavaScript `String(value)` on the values `buildQuery` can receive. -/
def JsVal.toJsString : JsVal → String
  | .undef => "undefined"
  | .null => "null"
  | .str s => s
  | .num n => toString n
  | .bool b => if b then "true" else "false"

/-- Hex digit (uppercase) for percent escapes. -/
def hexDigitUpper (n : Nat) : Char :=
  if n < 10 then Char.ofNat (48 + n) else Char.ofNat (55 + n)

/-- UTF-8 bytes of a code point, for percent-encoding. -/
def utf8Bytes (n : Nat) : List Nat :=
  if n < 128 then [n]
  else if n < 2048 then [192 + n / 64, 128 + n % 64]
  else if n < 65536 then [224 + n / 4096, 128 + (n / 64) % 64, 128 + n % 64]
  else [240 + n / 262144, 128 + (n / 4096) % 64, 128 + (n / 64) % 64, 128 + n % 64]

/-- Characters serialized verbatim by `URLSearchParams`
(`application/x-www-form-urlencoded` set: alphanumerics and `*-._`). -/
def isFormSafe (c : Char) : Bool :=
  (c ≥ 'a' ∧ c ≤ 'z') ∨ (c ≥ 'A' ∧ c ≤ 'Z') ∨ (c ≥ '0' ∧ c ≤ '9') ∨
    c = '*' ∨ c = '-' ∨ c = '.' ∨ c = '_'

/-- `application/x-www-form-urlencoded` serialization of one character:
space becomes `+`, safe characters pass through, everything else is
percent-encoded per UTF-8 byte. -/
def formEncodeChar (c : Char) : List Char :=
  if c = ' ' then ['+']
  else if isFormSafe c then [c]
  else (utf8Bytes c.toNat).flatMap fun b => ['%', hexDigitUpper (b / 16), hexDigitUpper (b % 16)]

/-- `application/x-www-form-urlencoded` serialization of a string, as done by
`URLSearchParams.toString`. -/
def formEncode (s : String) : String :=
  ⟨s.data.flatMap formEncodeChar⟩

/-- Serialization of one `key=value` pair. -/
def encodePair (p : String × JsVal) : String :=
  formEncode p.1 ++ "=" ++ formEncode p.2.toJsString

/-- The `&`-joined serialization of the appended pairs, as produced by
`URLSearchParams.toString`. -/
def joinPairs : List (String × JsVal) → String
  | [] => ""
  | [p] => encodePair p
  | p :: rest => encodePair p ++ "&" ++ joinPairs rest

/-- Embedding of `buildQuery` from `app/lib/api.ts`: entries whose value is
`undefined`, `null` or `''` are skipped; the remaining pairs are serialized
by `URLSearchParams`; a non-empty serialization is prefixed with `?`.
JavaScript object keys are ordered, so the parameter record is a list. -/
def buildQuery (params : List (String × JsVal)) : String :=
  let kept := params.filter fun p => !p.2.isSkipped
  let query := joinPairs kept
  if query = "" then "" else "?" ++ query

/-! ### `discoverEventsWithGemini` -/

/-- The `GeminiDiscoveryPayload` type of `app/lib/api.ts`. -/
structure GeminiDiscoveryPayload where
  query : String
  region : Option String
  daysAhead : Option Nat
  limit : Option Nat
  model : Option String
deriving DecidableEq, Repr

/-- The JSON body that `discoverEventsWithGemini` posts to
`/api/discovery/gemini`.  The `model` field is sent as JSON `null` when the
caller omitted it (`payload.model ?? null`), kept here as `none`. -/
structure GeminiRequestBody where
  query : String
  region : String
  days_ahead : Nat
  limit : Nat
  model : Option String
deriving DecidableEq, Repr

/-- Embedding of the request-body construction inside
`discoverEventsWithGemini` (`app/lib/api.ts`): every `x ?? d` becomes
`Option.getD`. -/
def buildGeminiRequestBody (payload : GeminiDiscoveryPayload) : GeminiRequestBody :=
  { query := payload.query
    region := payload.region.getD "hamburg"
    days_ahead := payload.daysAhead.getD 14
    limit := payload.limit.getD 30
    model := payload.model }

/-- The optional `stages.search` block of the backend response. -/
structure RawStagesSearch where
  events_found_raw : Option Nat
  grounding_url_count : Option Nat
  model : Option String
  timeout_seconds : Option Nat
  retry_count : Option Nat
deriving Repr

/-- The optional `stages.normalization` block of the backend response. -/
structure RawStagesNormalization where
  events_normalized : Option Nat
  events_dropped_validation : Option Nat
  issues_count : Option Nat
deriving Repr

/-- The optional `stages.persistence` block of the backend response. -/
structure RawStagesPersistence where
  events_saved : Option Nat
  events_new : Option Nat
  events_existing : Option Nat
  events_dropped_persistence : Option Nat
  persistence_errors : Option Nat
deriving Repr

/-- The optional `stages.geocoding` block of the backend response. -/
structure RawStagesGeocoding where
  events_geocoded : Option Nat
deriving Repr

/-- The optional `stages` block of the backend response; every sub-block is
itself optional (`stages?.search?` and friends). -/
structure RawStages where
  search : Option RawStagesSearch
  normalization : Option RawStagesNormalization
  persistence : Option RawStagesPersistence
  geocoding : Option RawStagesGeocoding
deriving Repr

/-- The raw JSON response of `/api/discovery/gemini` as typed inside
`discoverEventsWithGemini`.  The issue histogram is a string-to-count map,
embedded as an association list. -/
structure RawDiscoveryResponse where
  success : Bool
  events_found : Nat
  events_normalized : Nat
  events_new : Nat
  events_existing : Nat
  events_saved : Nat
  events_dropped : Nat
  events_dropped_validation : Nat
  events_dropped_persistence : Nat
  error_message : Option String
  model : String
  issues : Option (List String)
  issue_summary : Option (List (String × Nat))
  grounding_urls : Option (List String)
  stages : Option RawStages
  events : List ApiEvent
deriving Repr

/-- The `GeminiDiscoveryStages.search` block of the frontend result type. -/
structure StagesSearch where
  eventsFoundRaw : Nat
  groundingUrlCount : Nat
  model : String
  timeoutSeconds : Option Nat
  retryCount : Option Nat
deriving Repr

/-- The `GeminiDiscoveryStages.normalization` block of the frontend result
type. -/
structure StagesNormalization where
  eventsNormalized : Nat
  eventsDroppedValidation : Nat
  issuesCount : Nat
deriving Repr

/-- The `GeminiDiscoveryStages.persistence` block of the frontend result
type. -/
structure StagesPersistence where
  eventsSaved : Nat
  eventsNew : Nat
  eventsExisting : Nat
  eventsDroppedPersistence : Nat
  persistenceErrors : Option Nat
deriving Repr

/-- The `GeminiDiscoveryStages.geocoding` block of the frontend result
type. -/
structure StagesGeocoding where
  eventsGeocoded : Nat
deriving Repr

/-- The `GeminiDiscoveryStages` type of `app/lib/api.ts`. -/
structure GeminiDiscoveryStages where
  search : StagesSearch
  normalization : StagesNormalization
  persistence : StagesPersistence
  geocoding : StagesGeocoding
deriving Repr

/-- The `GeminiDiscoveryResult` type of `app/lib/api.ts`. -/
structure GeminiDiscoveryResult where
  success : Bool
  eventsFound : Nat
  eventsNormalized : Nat
  eventsNew : Nat
  eventsExisting : Nat
  eventsSaved : Nat
  eventsDropped : Nat
  eventsDroppedValidation : Nat
  eventsDroppedPersistence : Nat
  errorMessage : Option String
  model : String
  issues : List String
  issueSummary : List (String × Nat)
  groundingUrls : List String
  stages : GeminiDiscoveryStages
  events : List Event
deriving Repr

/-- Embedding of the response mapping inside `discoverEventsWithGemini`
(`app/lib/api.ts`, the big return object): optional chaining
`data.stages?.search?.field` becomes nested `Option.bind`, and `x ?? d`
becomes `Option.getD`. -/
def mapDiscoveryResponse (data : RawDiscoveryResponse) : GeminiDiscoveryResult :=
  { success := data.success
    eventsFound := data.events_found
    eventsNormalized := data.events_normalized
    eventsNew := data.events_new
    eventsExisting := data.events_existing
    eventsSaved := data.events_saved
    eventsDropped := data.events_dropped
    eventsDroppedValidation := data.events_dropped_validation
    eventsDroppedPersistence := data.events_dropped_persistence
    errorMessage := data.error_message
    model := data.model
    issues := data.issues.getD []
    issueSummary := data.issue_summary.getD []
    groundingUrls := data.grounding_urls.getD []
    stages :=
      { search :=
          { eventsFoundRaw :=
              ((data.stages.bind (·.search)).bind (·.events_found_raw)).getD data.events_found
            groundingUrlCount :=
              ((data.stages.bind (·.search)).bind (·.grounding_url_count)).getD
                ((data.grounding_urls.map List.length).getD 0)
            model := ((data.stages.bind (·.search)).bind (·.model)).getD data.model
            timeoutSeconds := (data.stages.bind (·.search)).bind (·.timeout_seconds)
            retryCount := (data.stages.bind (·.search)).bind (·.retry_count) }
        normalization :=
          { eventsNormalized :=
              ((data.stages.bind (·.normalization)).bind (·.events_normalized)).getD
                data.events_normalized
            eventsDroppedValidation :=
              ((data.stages.bind (·.normalization)).bind (·.events_dropped_validation)).getD
                data.events_dropped_validation
            issuesCount :=
              ((data.stages.bind (·.normalization)).bind (·.issues_count)).getD
                ((data.issues.map List.length).getD 0) }
        persistence :=
          { eventsSaved :=
              ((data.stages.bind (·.persistence)).bind (·.events_saved)).getD data.events_saved
            eventsNew :=
              ((data.stages.bind (·.persistence)).bind (·.events_new)).getD data.events_new
            eventsExisting :=
              ((data.stages.bind (·.persistence)).bind (·.events_existing)).getD
                data.events_existing
            eventsDroppedPersistence :=
              ((data.stages.bind (·.persistence)).bind (·.events_dropped_persistence)).getD
                data.events_dropped_persistence
            persistenceErrors := (data.stages.bind (·.persistence)).bind (·.persistence_errors) }
        geocoding :=
          { eventsGeocoded :=
              ((data.stages.bind (·.geocoding)).bind (·.events_geocoded)).getD 0 } }
    events := data.events.map toEvent }

end Api

/-! ## Embedding of `normalizeUrl` from `app/app/(tabs)/sources.tsx` -/

namespace Sources

/-- A parsed URL as produced by the platform `new URL(...)` constructor:
the lower-cased scheme, the authority host, and the remaining serialized
path / query / fragment. -/
structure JsUrl where
  scheme : String
  host : String
  path : String
deriving DecidableEq, Repr

/-- Splits a character list at its first `:`: returns the characters before
it and the characters after it, or `none` when there is no colon. -/
def splitScheme : List Char → Option (List Char × List Char)
  | [] => none
  | c :: cs =>
      if c = ':' then some ([], cs)
      else (splitScheme cs).map fun p => (c :: p.1, p.2)

/-- Scheme characters allowed after the leading letter (RFC 3986 / WHATWG). -/
def isSchemeTailChar (c : Char) : Bool :=
  c.isAlphanum || c = '+' || c = '-' || c = '.'

/-- The WHATWG special schemes that require an authority with a non-empty
host. -/
def specialSchemes : List String := ["http", "https", "ws", "wss", "ftp"]

/-- Host terminator characters inside an authority. -/
def isAuthorityEnd (c : Char) : Bool :=
  c = '/' || c = '?' || c = '#'

/-- Model of the platform `new URL(input)` constructor (an external builtin,
not repository code), restricted to the behaviors `normalizeUrl` relies on:
the scheme is read up to the first `:`, validated (letter first, then
letters / digits / `+` / `-` / `.`) and lower-cased; a special scheme such
as `http` or `https` must be followed by `//` and a non-empty host, else
the constructor throws, modelled as `none`.  Non-special schemes keep the
remainder opaque. -/
def jsUrlParse (input : String) : Option JsUrl :=
  match splitScheme input.data with
  | none => none
  | some (schemeChars, rest) =>
      match schemeChars.map Char.toLower with
      | [] => none
      | c :: cs =>
          if c.isAlpha && cs.all isSchemeTailChar then
            if (⟨c :: cs⟩ : String) ∈ specialSchemes then
              match rest with
              | '/' :: '/' :: afterSlashes =>
                  if (afterSlashes.takeWhile fun ch => !isAuthorityEnd ch).isEmpty then none
                  else
                    some ⟨⟨c :: cs⟩, ⟨afterSlashes.takeWhile fun ch => !isAuthorityEnd ch⟩,
                      ⟨afterSlashes.dropWhile fun ch => !isAuthorityEnd ch⟩⟩
              | _ => none
            else some ⟨⟨c :: cs⟩, "", ⟨rest⟩⟩
          else none

/-- Model of `URL.prototype.toString` on the parses produced by
`jsUrlParse`: special-scheme URLs serialize as `scheme://host` followed by
the path (`/` when the path is empty); other schemes reattach the opaque
remainder. -/
def jsUrlToString (u : JsUrl) : String :=
  if u.scheme ∈ specialSchemes then
    u.scheme ++ "://" ++ u.host ++ (if u.path = "" then "/" else u.path)
  else u.scheme ++ ":" ++ u.path

/-- Embedding of the regex test `/^https?:\/\//i.test(trimmed)`: the input
starts, case-insensitively, with `http://` or `https://`.  Expressed through
`splitScheme` (the first `:` of such an input is exactly the one after the
scheme letters, since none of `h`, `t`, `p`, `s` is a colon): the characters
before the first colon lower-case to `http` or `https` and `//` follows. -/
def matchesHttpScheme (l : List Char) : Bool :=
  match splitScheme l with
  | none => false
  | some (sc, rest) =>
      (sc.map Char.toLower = "http".data || sc.map Char.toLower = "https".data) &&
        rest.take 2 = ['/', '/']

/-- Embedding of `normalizeUrl` from `app/app/(tabs)/sources.tsx`: trim,
return the empty string on blank input, prefix `https://` when the input
does not already carry an `http(s)://` scheme, then parse with `new URL`;
a parse failure (the `catch` branch) also yields the empty string. -/
def normalizeUrl (rawUrl : String) : String :=
  let trimmed := trimString rawUrl
  if trimmed = "" then ""
  else
    let withScheme :=
      if matchesHttpScheme trimmed.data then trimmed else "https://" ++ trimmed
    match jsUrlParse withScheme with
    | some u => jsUrlToString u
    | none => ""

end Sources

/-! ## The backend discovery / normalization pipeline

The Python backend (validator, identity assigner, deduplicator) is not part
of the checked source tree — only its documentation is (`PLAN.md`,
`PROGRESS.md`, `GEMINI_SUCHE_EVENTS_SPEZIFIKATION.md`).  Every definition in
this namespace is therefore modelled from the specification text, as noted
on each definition. -/

namespace Pipeline

/-- Modelled from the spec: a timezone-aware timestamp, as required of
`dateStart` ("timestamp, timezone-aware"); the offset is kept in minutes. -/
structure Timestamp where
  year : Nat
  month : Nat
  day : Nat
  hour : Nat
  minute : Nat
  second : Nat
  tzOffsetMinutes : Int
deriving DecidableEq, Repr

/-- Day number of a civil date (standard proleptic-Gregorian day count),
used to order timestamps. -/
def daysFromCivil (y m d : Nat) : Nat :=
  let y := if m ≤ 2 then y - 1 else y
  let era := y / 400
  let yoe := y % 400
  let mp := (m + 9) % 12
  let doy := (153 * mp + 2) / 5 + d - 1
  let doe := yoe * 365 + yoe / 4 - yoe / 100 + doy
  era * 146097 + doe

/-- Seconds of a timestamp on the UTC time line, for comparisons. -/
def Timestamp.utcSeconds (t : Timestamp) : Int :=
  ((daysFromCivil t.year t.month t.day : Int) * 1440 +
      (t.hour : Int) * 60 + (t.minute : Int) - t.tzOffsetMinutes) * 60 + (t.second : Int)

/-- Value of an ASCII digit. -/
def digitVal (c : Char) : Option Nat :=
  if c.isDigit then some (c.toNat - 48) else none

/-- Reads two ASCII digits. -/
def parse2 : List Char → Option (Nat × List Char)
  | a :: b :: rest =>
      match digitVal a, digitVal b with
      | some x, some y => some (10 * x + y, rest)
      | _, _ => none
  | _ => none

/-- Reads four ASCII digits. -/
def parse4 : List Char → Option (Nat × List Char)
  | a :: b :: c :: d :: rest =>
      match digitVal a, digitVal b, digitVal c, digitVal d with
      | some w, some x, some y, some z => some (1000 * w + 100 * x + 10 * y + z, rest)
      | _, _, _, _ => none
  | _ => none

/-- Consumes one expected character. -/
def expectChar (c : Char) : List Char → Option (List Char)
  | d :: rest => if d = c then some rest else none
  | [] => none

/-- Reads the timezone designator: `Z`, or `±HH:MM`, ending the input.
Returns the offset in minutes. -/
def parseTz : List Char → Option Int
  | ['Z'] => some 0
  | c :: rest =>
      if c = '+' ∨ c = '-' then
        match parse2 rest with
        | some (h, rest1) =>
            match expectChar ':' rest1 with
            | some rest2 =>
                match parse2 rest2 with
                | some (m, []) =>
                    let mins : Int := h * 60 + m
                    some (if c = '-' then -mins else mins)
                | _ => none
            | none => none
        | none => none
      else none
  | [] => none

/-- Modelled from the spec: strict ISO-8601 parsing of a timezone-aware
timestamp, format `YYYY-MM-DDTHH:mm:ss±HH:mm` or `...Z`
(`GEMINI_SUCHE_EVENTS_SPEZIFIKATION.md`, field rule 2); a string without an
explicit offset is not timezone-aware and is rejected.  Field ranges are
checked. -/
def parseIsoTimestamp (s : String) : Option Timestamp :=
  match parse4 s.data with
  | none => none
  | some (year, r1) =>
      match expectChar '-' r1 with
      | none => none
      | some r2 =>
          match parse2 r2 with
          | none => none
          | some (month, r3) =>
              match expectChar '-' r3 with
              | none => none
              | some r4 =>
                  match parse2 r4 with
                  | none => none
                  | some (day, r5) =>
                      match expectChar 'T' r5 with
                      | none => none
                      | some r6 =>
                          match parse2 r6 with
                          | none => none
                          | some (hour, r7) =>
                              match expectChar ':' r7 with
                              | none => none
                              | some r8 =>
                                  match parse2 r8 with
                                  | none => none
                                  | some (minute, r9) =>
                                      match expectChar ':' r9 with
                                      | none => none
                                      | some r10 =>
                                          match parse2 r10 with
                                          | none => none
                                          | some (second, r11) =>
                                              match parseTz r11 with
                                              | none => none
                                              | some tz =>
                                                  if 1 ≤ month ∧ month ≤ 12 ∧ 1 ≤ day ∧ day ≤ 31 ∧
                                                      hour ≤ 23 ∧ minute ≤ 59 ∧ second ≤ 60 then
                                                    some ⟨year, month, day, hour, minute, second, tz⟩
                                                  else none

/-- Whitespace for the normalization of identity inputs. -/
def isWsChar (c : Char) : Bool :=
  c = ' ' || c = '\t' || c = '\n' || c = '\r'

/-- Modelled from the spec: the punctuation stripped during identity
normalization ("strip punctuation"); the concrete set is a modelling
choice, fixed here. -/
def isPunctChar (c : Char) : Bool :=
  c ∈ ['.', ',', ';', ':', '!', '?', '"', '\'', '`', '(', ')', '[', ']',
        '-', '_', '/', '\\', '&', '+', '*', '#', '@']

/-- Collapses internal whitespace runs to a single space; a pending run is
only emitted before a further non-space character, so trailing whitespace
is dropped.  Leading whitespace must be removed by the caller. -/
def collapseWsAux : List Char → Bool → List Char
  | [], _ => []
  | c :: rest, pendingSpace =>
      if isWsChar c then collapseWsAux rest true
      else if pendingSpace then ' ' :: c :: collapseWsAux rest false
      else c :: collapseWsAux rest false

/-- Modelled from the spec: identity-input normalization — lower-case,
strip punctuation, collapse internal whitespace, trim
(`spec.md` §4.2). -/
def normalizeText (s : String) : String :=
  let lowered := s.data.map Char.toLower
  let stripped := lowered.filter fun c => !isPunctChar c
  ⟨collapseWsAux (stripped.dropWhile isWsChar) false⟩

/-- Fixed-width zero-padded decimal rendering. -/
def padNat (width n : Nat) : String :=
  let digits := toString n
  ⟨List.replicate (width - digits.length) '0'⟩ ++ digits

/-- Modelled from the spec: the calendar-date portion of `dateStart` —
time-of-day and timezone are dropped without conversion (`spec.md` §4.2,
a documented design choice). -/
def calendarDatePart (t : Timestamp) : String :=
  padNat 4 t.year ++ "-" ++ padNat 2 t.month ++ "-" ++ padNat 2 t.day

/-- Modelled from the spec: the fixed sentinel that an empty or unknown
location name normalizes to. -/
def locationSentinel : String := "unknown-location"

/-- Modelled from the spec: location-name normalization — same
normalization as the title, with empty / unknown collapsing to the fixed
sentinel. -/
def normalizeLocationName (name : Option String) : String :=
  match name with
  | none => locationSentinel
  | some s =>
      let n := normalizeText s
      if n = "" ∨ n = "unknown" then locationSentinel else n

/-- Modelled from the spec: the location part of a `NormalizedEvent`
(`spec.md` §3); coordinates are carried as scaled integers — no claim
computes with them. -/
structure EventLocation where
  name : Option String
  address : Option String
  district : Option String
  lat : Option Int
  lng : Option Int
deriving DecidableEq, Repr

/-- Modelled from the spec: a schema-conformant `NormalizedEvent`
(`spec.md` §3).  Absent optional free-text fields are the explicit
unknown marker, carried as `none`. -/
structure NormalizedEvent where
  title : String
  description : String
  dateStart : Timestamp
  dateEnd : Option Timestamp
  location : EventLocation
  category : String
  isIndoor : Bool
  ageSuitability : Option String
  priceInfo : Option String
  originalLink : Option String
  region : String
deriving DecidableEq, Repr

/-- Modelled from the spec: the cryptographic hash of the identity scheme.
The documented implementation uses MD5 (`PROGRESS.md` 1.4); this model
stands in a concrete 64-bit polynomial string hash — every claim under
verification depends only on the hash being a function of its input
string. -/
def identityHash (s : String) : Nat :=
  s.data.foldl (fun h c => (h * 131 + c.toNat) % 2 ^ 64) 7

/-- Lower-case hex digit. -/
def hexDigitLower (n : Nat) : Char :=
  if n < 10 then Char.ofNat (48 + n) else Char.ofNat (87 + n)

/-- Fixed-width hex rendering (most significant digit first). -/
def hexFixed (width n : Nat) : String :=
  ⟨((List.range width).reverse.map fun i => hexDigitLower (n / 16 ^ i % 16))⟩

/-- Modelled from the spec: the three normalized identity parts joined with
a fixed separator (`spec.md` §4.2). -/
def identityKey (e : NormalizedEvent) : String :=
  normalizeText e.title ++ "|" ++ calendarDatePart e.dateStart ++ "|" ++
    normalizeLocationName e.location.name

/-- Modelled from the spec: `identityOf` — hash the joined normalized
parts, take a fixed-length hex prefix (`spec.md` §4.2); the prefix is the
first 12 of the 16 hex digits, taken over the character list. -/
def identityOf (e : NormalizedEvent) : String :=
  ⟨(hexFixed 16 (identityHash (identityKey e))).data.take 12⟩

/-- Modelled from the spec: a stored record — a `NormalizedEvent` plus the
content-hash `id` and the producing `sourceId` (`spec.md` §3). -/
structure StoredEvent where
  id : String
  sourceId : String
  event : NormalizedEvent
deriving DecidableEq, Repr

/-- The persisted store, looked up by identity. -/
def findById (store : List StoredEvent) (id : String) : Option StoredEvent :=
  store.find? fun r => r.id = id

/-- Number of stored records carrying an identity. -/
def countId (store : List StoredEvent) (id : String) : Nat :=
  store.countP fun r => r.id = id

/-- Modelled from the spec: the field overwrite of an upsert on an existing
record — all non-identity fields are overwritten (description, category,
price, link, ...), coordinates only if newly available; the identity
fields (title, start date, location name) stay as stored (`spec.md`
§4.4). -/
def overwriteNonIdentity (old new : NormalizedEvent) : NormalizedEvent :=
  { new with
    title := old.title
    dateStart := old.dateStart
    location :=
      { new.location with
        name := old.location.name
        lat := new.location.lat <|> old.location.lat
        lng := new.location.lng <|> old.location.lng } }

/-- Modelled from the spec: `upsert` (`spec.md` §4.4) — compute the
identity; insert with the producing run's `sourceId` and `isNew = true`
when absent; otherwise overwrite the non-identity fields, retain the
stored `sourceId` unless reassignment is requested, and report
`isNew = false`.  Returns the `isNew` flag and the updated store. -/
def upsert (store : List StoredEvent) (e : NormalizedEvent) (sourceId : String)
    (reassignSource : Bool) : Bool × List StoredEvent :=
  let id := identityOf e
  match findById store id with
  | none => (true, store ++ [⟨id, sourceId, e⟩])
  | some old =>
      let updated : StoredEvent :=
        ⟨id, if reassignSource then sourceId else old.sourceId, overwriteNonIdentity old.event e⟩
      (false, store.map fun r => if r.id = id then updated else r)

/-- A JSON value as a candidate field can carry it; used where the spec
requires a type check ("`isIndoor` must be a genuine boolean"). -/
inductive JsonVal where
  | jnull
  | jbool (b : Bool)
  | jstr (s : String)
  | jnum (n : Int)
deriving DecidableEq, Repr

/-- Modelled from the spec: a raw candidate — an unvalidated mapping with
possibly missing fields and wrong types (`spec.md` §3, §6).  Absent keys
and JSON `null` are both `none`; `is_indoor` keeps its raw JSON value so
the boolean type check is expressible. -/
structure RawCandidate where
  title : Option String
  description : Option String
  date_start : Option String
  date_end : Option String
  location_name : Option String
  location_address : Option String
  location_district : Option String
  location_lat : Option Int
  location_lng : Option Int
  category : Option String
  is_indoor : JsonVal
  age_suitability : Option String
  price_info : Option String
  original_link : Option String
  region : Option String
deriving DecidableEq, Repr

/-- Modelled from the spec: validation outcome — a tagged result, not an
exception (`spec.md` §9); success carries the normalized event and the
non-fatal issues recorded along the way. -/
inductive ValidationResult where
  | ok (e : NormalizedEvent) (issues : List String)
  | failed (reason : String)
deriving DecidableEq, Repr

/-- Does a validation outcome pass? -/
def ValidationResult.isOk : ValidationResult → Bool
  | .ok _ _ => true
  | .failed _ => false

/-- The drop reason of a failed outcome. -/
def ValidationResult.reason? : ValidationResult → Option String
  | .ok _ _ => none
  | .failed r => some r

/-- Modelled from the spec: placeholder sentinels that normalize to the
explicit unknown marker (`spec.md` §4.1 rule 7). -/
def placeholderWords : List String := ["unknown", "n/a", "k.a.", "unbekannt"]

/-- Modelled from the spec: free-text normalization — trim, map empty
strings and placeholder words to the explicit unknown marker
(`spec.md` §4.1 rule 7). -/
def normFreeText (o : Option String) : Option String :=
  match o with
  | none => none
  | some s =>
      let t := trimString s
      if t = "" ∨ toLowerCase t ∈ placeholderWords then none else some t

/-- Modelled from the spec: the backend category rule — lower-case, match
against the fixed enumeration, coerce unmatched values to the configured
default `outdoor` with a non-fatal `category_coerced` issue
(`spec.md` §4.1 rule 3).  Shares the frontend enumeration. -/
def normalizeCategoryChecked (category : Option String) : String × List String :=
  match category with
  | none => ("outdoor", ["category_coerced"])
  | some s =>
      let lowered := toLowerCase s
      if lowered ∈ Api.validCategories then (lowered, [])
      else ("outdoor", ["category_coerced"])

/-- Is a string an absolute `http(s)` URL, as required of `originalLink`?
Modelled from the spec (`spec.md` §4.1 rule 6) through the scheme test of
the frontend URL model. -/
def isAbsoluteHttpUrl (s : String) : Bool :=
  Sources.matchesHttpScheme s.data

/-- Modelled from the spec: `validate(candidate)` (`spec.md` §4.1), rules
in order with short-circuiting on the first fatal failure:
title (`missing_title`), timezone-aware `date_start`
(`unparseable_date`), `date_end` dropped with a non-fatal
`date_end_before_start` when it fails to parse or precedes the start,
category coercion, genuine-boolean `is_indoor` (`missing_indoor_flag`),
region default, link clearing (`invalid_link_cleared`), free-text
normalization to the unknown marker. -/
def validate (c : RawCandidate) : ValidationResult :=
  match c.title with
  | none => .failed "missing_title"
  | some rawTitle =>
      let title := trimString rawTitle
      if title = "" then .failed "missing_title"
      else
        match c.date_start.bind parseIsoTimestamp with
        | none => .failed "unparseable_date"
        | some dateStart =>
            let (dateEnd, dateIssues) :=
              match c.date_end with
              | none => (none, [])
              | some rawEnd =>
                  match parseIsoTimestamp rawEnd with
                  | some t =>
                      if t.utcSeconds < dateStart.utcSeconds then
                        (none, ["date_end_before_start"])
                      else (some t, [])
                  | none => (none, ["date_end_before_start"])
            let (category, categoryIssues) := normalizeCategoryChecked c.category
            match c.is_indoor with
            | .jbool isIndoor =>
                let region :=
                  match c.region with
                  | none => "hamburg"
                  | some r => if trimString r = "" then "hamburg" else trimString r
                let (originalLink, linkIssues) :=
                  match c.original_link with
                  | none => (none, [])
                  | some l =>
                      if isAbsoluteHttpUrl l then (some l, [])
                      else (none, ["invalid_link_cleared"])
                .ok
                  { title := title
                    description := (normFreeText c.description).getD ""
                    dateStart := dateStart
                    dateEnd := dateEnd
                    location :=
                      { name := normFreeText c.location_name
                        address := normFreeText c.location_address
                        district := normFreeText c.location_district
                        lat := c.location_lat
                        lng := c.location_lng }
                    category := category
                    isIndoor := isIndoor
                    ageSuitability := normFreeText c.age_suitability
                    priceInfo := normFreeText c.price_info
                    originalLink := originalLink
                    region := region }
                  (dateIssues ++ categoryIssues ++ linkIssues)
            | _ => .failed "missing_indoor_flag"

/-- Modelled from the spec: the per-run accumulator of the stage tracker
(`spec.md` §4.6) together with the store the run writes into. -/
structure BatchState where
  found : Nat
  normalized : Nat
  droppedValidation : Nat
  saved : Nat
  newCount : Nat
  existingCount : Nat
  dropReasons : List String
  store : List StoredEvent
deriving Repr

/-- One pipeline step: validate a candidate, drop it with its reason on
failure, otherwise upsert it and count it as saved. -/
def batchStep (sourceId : String) (st : BatchState) (c : RawCandidate) : BatchState :=
  match validate c with
  | .failed reason =>
      { st with
        droppedValidation := st.droppedValidation + 1
        dropReasons := st.dropReasons ++ [reason] }
  | .ok e _ =>
      let (isNew, store) := upsert st.store e sourceId false
      { st with
        normalized := st.normalized + 1
        saved := st.saved + 1
        newCount := st.newCount + if isNew then 1 else 0
        existingCount := st.existingCount + if isNew then 0 else 1
        store := store }

/-- Modelled from the spec: a pipeline run over a batch of candidates
(`spec.md` §2, §7c): invalid candidates are dropped and counted with
their reasons, the rest of the batch continues, valid candidates are
upserted; persistence itself is assumed available. -/
def processBatch (store : List StoredEvent) (sourceId : String)
    (cs : List RawCandidate) : BatchState :=
  cs.foldl (batchStep sourceId)
    { found := cs.length
      normalized := 0
      droppedValidation := 0
      saved := 0
      newCount := 0
      existingCount := 0
      dropReasons := []
      store := store }

end Pipeline

/-! ## Concrete inputs used by counterexamples and witnesses -/

/-- An API event payload whose optional free-text fields are all absent. -/
def apiEventAbsentFields : Api.ApiEvent :=
  { id := "e1"
    source_id := none
    title := "Kinderkonzert"
    description := none
    date_start := "2026-02-14T11:00:00+01:00"
    date_end := none
    location_name := none
    location_address := none
    location_district := none
    location_lat := none
    location_lng := none
    category := some "music"
    is_indoor := true
    age_suitability := none
    price_info := none
    original_link := none
    region := some "hamburg" }

/-- The same payload with an empty-string description. -/
def apiEventEmptyDescription : Api.ApiEvent :=
  { apiEventAbsentFields with description := some "" }

/-- The same payload with an empty-string region. -/
def apiEventEmptyRegion : Api.ApiEvent :=
  { apiEventAbsentFields with region := some "" }

/-- The same payload with the region absent. -/
def apiEventNoRegion : Api.ApiEvent :=
  { apiEventAbsentFields with region := none }

/-- A parameter record with blank-valued entries mixed in. -/
def queryParamsExample : List (String × Api.JsVal) :=
  [("region", .str "hamburg"), ("category", .undef), ("is_indoor", .null),
   ("q", .str ""), ("limit", .num 5)]

/-- A discovery payload with every optional field omitted. -/
def discoveryPayloadBare : Api.GeminiDiscoveryPayload :=
  { query := "familienfreundliche events hamburg"
    region := none
    daysAhead := none
    limit := none
    model := none }

/-- A discovery payload with every optional field given. -/
def discoveryPayloadFull : Api.GeminiDiscoveryPayload :=
  { query := "puppentheater hamburg"
    region := some "altona"
    daysAhead := some 7
    limit := some 10
    model := some "gemini-2.5-flash" }

/-- A backend discovery response without the per-stage block. -/
def discoveryResponseNoStages : Api.RawDiscoveryResponse :=
  { success := true
    events_found := 10
    events_normalized := 8
    events_new := 5
    events_existing := 2
    events_saved := 7
    events_dropped := 3
    events_dropped_validation := 2
    events_dropped_persistence := 1
    error_message := none
    model := "gemini-2.5-flash"
    issues := some ["missing_title", "unparseable_date"]
    issue_summary := some [("missing_title", 1), ("unparseable_date", 1)]
    grounding_urls := some ["https://example.org/a", "https://example.org/b"]
    stages := none
    events := [] }

/-- A normalized event as the pipeline model produces it. -/
def sampleEvent : Pipeline.NormalizedEvent :=
  { title := "Kinderkonzert"
    description := "Interaktives Familienkonzert."
    dateStart := ⟨2026, 2, 14, 11, 0, 0, 60⟩
    dateEnd := none
    location :=
      { name := some "Elbphilharmonie"
        address := some "Platz der Deutschen Einheit 4"
        district := some "HafenCity"
        lat := none
        lng := none }
    category := "music"
    isIndoor := true
    ageSuitability := some "4+"
    priceInfo := some "ab 8 EUR"
    originalLink := none
    region := "hamburg" }

/-- A candidate for the identity claim: title differing in casing,
whitespace and punctuation, a different time-of-day and timezone on the
same calendar date, and a location name differing in casing. -/
def identityEventA : Pipeline.NormalizedEvent :=
  { sampleEvent with
    title := "KINDER   KONZERT!"
    dateStart := ⟨2026, 2, 14, 11, 0, 0, 60⟩
    location := { sampleEvent.location with name := some "Elbphilharmonie" } }

/-- The mate of `identityEventA`: same normalized title, same calendar
date, same normalized location name. -/
def identityEventB : Pipeline.NormalizedEvent :=
  { sampleEvent with
    title := " kinder konzert "
    description := "Eine andere Beschreibung."
    dateStart := ⟨2026, 2, 14, 20, 30, 0, 0⟩
    location := { sampleEvent.location with name := some "  ELBPHILHARMONIE" } }

/-- A raw candidate passing every validation rule. -/
def candidateGood : Pipeline.RawCandidate :=
  { title := some "Kinderkonzert"
    description := some "Interaktives Familienkonzert."
    date_start := some "2026-02-14T11:00:00+01:00"
    date_end := none
    location_name := some "Elbphilharmonie"
    location_address := none
    location_district := none
    location_lat := none
    location_lng := none
    category := some "music"
    is_indoor := .jbool true
    age_suitability := some "4+"
    price_info := none
    original_link := none
    region := some "hamburg" }

/-- A raw candidate without a title. -/
def candidateNoTitle : Pipeline.RawCandidate :=
  { candidateGood with title := none }

/-- A raw candidate whose start date does not parse. -/
def candidateBadDate : Pipeline.RawCandidate :=
  { candidateGood with date_start := some "next saturday" }

/-- A raw candidate whose indoor flag is a string, not a boolean. -/
def candidateNoBool : Pipeline.RawCandidate :=
  { candidateGood with is_indoor := .jstr "yes" }

/-! ## Shared helper lemmas -/

theorem option_orElse_self {α : Type} (o : Option α) : (o <|> o) = o := by
  cases o <;> rfl

theorem overwriteNonIdentity_self (e : Pipeline.NormalizedEvent) :
    Pipeline.overwriteNonIdentity e e = e := by
  cases e with
  | mk t d ds de loc c i a p o r =>
      cases loc
      simp [Pipeline.overwriteNonIdentity, option_orElse_self]

theorem findById_eq_none_iff (l : List Pipeline.StoredEvent) (id : String) :
    Pipeline.findById l id = none ↔ ∀ x ∈ l, ¬ x.id = id := by
  unfold Pipeline.findById
  rw [List.find?_eq_none]
  simp

theorem findById_append_of_none (l1 l2 : List Pipeline.StoredEvent) (id : String)
    (h : Pipeline.findById l1 id = none) :
    Pipeline.findById (l1 ++ l2) id = Pipeline.findById l2 id := by
  unfold Pipeline.findById at *
  rw [List.find?_append, h]
  rfl

theorem map_ite_id_of_not_mem (l : List Pipeline.StoredEvent) (id : String)
    (u : Pipeline.StoredEvent) (h : ∀ x ∈ l, ¬ x.id = id) :
    (l.map fun r => if r.id = id then u else r) = l := by
  induction l with
  | nil => rfl
  | cons a t ih =>
      have ha := h a (by simp)
      simp only [List.map_cons, if_neg ha, List.cons.injEq, true_and]
      exact ih fun x hx => h x (by simp [hx])

theorem encodePair_length_pos (p : String × Api.JsVal) : 0 < (Api.encodePair p).length := by
  unfold Api.encodePair
  rw [String.length_append, String.length_append]
  have h1 : ("=" : String).length = 1 := rfl
  omega

theorem joinPairs_length_pos :
    ∀ ps : List (String × Api.JsVal), ps ≠ [] → 0 < (Api.joinPairs ps).length
  | [], h => absurd rfl h
  | [p], _ => by simpa [Api.joinPairs] using encodePair_length_pos p
  | p :: q :: rest, _ => by
      have hq : Api.joinPairs (p :: q :: rest) =
          Api.encodePair p ++ "&" ++ Api.joinPairs (q :: rest) := rfl
      rw [hq, String.length_append, String.length_append]
      have := encodePair_length_pos p
      omega

theorem joinPairs_ne_empty (ps : List (String × Api.JsVal)) (h : ps ≠ []) :
    Api.joinPairs ps ≠ "" := by
  intro h0
  have h1 := joinPairs_length_pos ps h
  rw [h0] at h1
  exact absurd h1 (by decide)

theorem jsUrlParse_scheme (s : String) (u : Sources.JsUrl) (sc rest : List Char)
    (hsp : Sources.splitScheme s.data = some (sc, rest))
    (hp : Sources.jsUrlParse s = some u) :
    u.scheme = ⟨sc.map Char.toLower⟩ := by
  unfold Sources.jsUrlParse at hp
  rw [hsp] at hp
  split at hp
  · exact absurd hp (by simp)
  · next a b heq =>
      rw [Option.some_inj] at heq
      obtain ⟨rfl, rfl⟩ : sc = a ∧ rest = b :=
        ⟨congrArg Prod.fst heq, congrArg Prod.snd heq⟩
      split at hp
      · exact absurd hp (by simp)
      · next c cs heq2 =>
          rw [heq2]
          split at hp
          · split at hp
            · split at hp
              · split at hp
                · exact absurd hp (by simp)
                · rw [Option.some_inj] at hp
                  rw [← hp]
              · exact absurd hp (by simp)
            · rw [Option.some_inj] at hp
              rw [← hp]
          · exact absurd hp (by simp)

theorem jsUrlParse_scheme_of_matches (s : String) (u : Sources.JsUrl)
    (hm : Sources.matchesHttpScheme s.data = true)
    (hp : Sources.jsUrlParse s = some u) :
    u.scheme = "http" ∨ u.scheme = "https" := by
  unfold Sources.matchesHttpScheme at hm
  cases hsp : Sources.splitScheme s.data with
  | none => rw [hsp] at hm; simp at hm
  | some pr =>
      obtain ⟨sc, rest⟩ := pr
      rw [hsp] at hm
      simp only [Bool.and_eq_true, Bool.or_eq_true, decide_eq_true_eq] at hm
      obtain ⟨hd, _⟩ := hm
      have hscheme := jsUrlParse_scheme s u sc rest hsp hp
      rcases hd with h | h
      · left
        rw [hscheme, h]
      · right
        rw [hscheme, h]

theorem batchStep_fields (src : String) (st : Pipeline.BatchState)
    (c : Pipeline.RawCandidate) :
    ((Pipeline.batchStep src st c).found = st.found) ∧
    ((Pipeline.batchStep src st c).saved =
      st.saved + if (Pipeline.validate c).isOk then 1 else 0) ∧
    ((Pipeline.batchStep src st c).droppedValidation =
      st.droppedValidation + if (Pipeline.validate c).isOk then 0 else 1) ∧
    ((Pipeline.batchStep src st c).dropReasons =
      st.dropReasons ++ (Pipeline.validate c).reason?.toList) := by
  cases hv : Pipeline.validate c with
  | ok e issues =>
      simp [Pipeline.batchStep, hv, Pipeline.ValidationResult.isOk,
        Pipeline.ValidationResult.reason?]
  | failed r =>
      simp [Pipeline.batchStep, hv, Pipeline.ValidationResult.isOk,
        Pipeline.ValidationResult.reason?]

theorem foldl_batchStep_counts (src : String) :
    ∀ (cs : List Pipeline.RawCandidate) (st : Pipeline.BatchState),
      ((cs.foldl (Pipeline.batchStep src) st).found = st.found) ∧
      ((cs.foldl (Pipeline.batchStep src) st).saved =
        st.saved + (cs.filter fun c => (Pipeline.validate c).isOk).length) ∧
      ((cs.foldl (Pipeline.batchStep src) st).droppedValidation =
        st.droppedValidation + (cs.filter fun c => !(Pipeline.validate c).isOk).length) ∧
      ((cs.foldl (Pipeline.batchStep src) st).dropReasons =
        st.dropReasons ++ cs.filterMap fun c => (Pipeline.validate c).reason?)
  | [], st => by simp
  | c :: rest, st => by
      have ih := foldl_batchStep_counts src rest (Pipeline.batchStep src st c)
      have hb := batchStep_fields src st c
      simp only [List.foldl_cons]
      refine ⟨?_, ?_, ?_, ?_⟩
      · rw [ih.1, hb.1]
      · rw [ih.2.1, hb.2.1]
        by_cases h : (Pipeline.validate c).isOk <;>
          (simp [List.filter_cons, h]; try omega)
      · rw [ih.2.2.1, hb.2.2.1]
        by_cases h : (Pipeline.validate c).isOk <;>
          (simp [List.filter_cons, h]; try omega)
      · rw [ih.2.2.2, hb.2.2.2]
        cases hv : Pipeline.validate c <;>
          simp [List.filterMap_cons, hv, Pipeline.ValidationResult.reason?]

/-! ## Claim theorems -/

/-- C1.  Identity determinism: two normalized events whose titles normalize
equal, whose start dates share the calendar date, and whose location names
normalize equal, receive the same identity from `identityOf`, irrespective
of time-of-day and timezone of `dateStart`. -/
theorem identityOf_deterministic (e1 e2 : Pipeline.NormalizedEvent)
    (ht : Pipeline.normalizeText e1.title = Pipeline.normalizeText e2.title)
    (hd : Pipeline.calendarDatePart e1.dateStart = Pipeline.calendarDatePart e2.dateStart)
    (hl : Pipeline.normalizeLocationName e1.location.name =
      Pipeline.normalizeLocationName e2.location.name) :
    Pipeline.identityOf e1 = Pipeline.identityOf e2 := by
  unfold Pipeline.identityOf Pipeline.identityKey
  rw [ht, hd, hl]

/-- Witness for C1: concrete events differing in title casing, whitespace
and punctuation, in time-of-day and timezone, and in location-name casing,
still share their identity. -/
theorem identityOf_deterministic_witness :
    Pipeline.normalizeText identityEventA.title = Pipeline.normalizeText identityEventB.title ∧
    Pipeline.calendarDatePart identityEventA.dateStart =
      Pipeline.calendarDatePart identityEventB.dateStart ∧
    Pipeline.normalizeLocationName identityEventA.location.name =
      Pipeline.normalizeLocationName identityEventB.location.name ∧
    Pipeline.identityOf identityEventA = Pipeline.identityOf identityEventB := by
  have ht : Pipeline.normalizeText identityEventA.title =
      Pipeline.normalizeText identityEventB.title := by decide
  have hd : Pipeline.calendarDatePart identityEventA.dateStart =
      Pipeline.calendarDatePart identityEventB.dateStart := by decide
  have hl : Pipeline.normalizeLocationName identityEventA.location.name =
      Pipeline.normalizeLocationName identityEventB.location.name := by decide
  exact ⟨ht, hd, hl, identityOf_deterministic identityEventA identityEventB ht hd hl⟩

/-- C2.  Idempotent upsert: with the event's identity absent from the
store, the first upsert reports `isNew = true` and inserts with the
producing run's `sourceId`; a second upsert of the same event reports
`isNew = false`, leaves exactly one record under that identity,
overwrites only non-identity fields (the stored event equals the
resubmitted one), and retains the original `sourceId` for any second
caller unless reassignment is requested, in which case the `sourceId`
is replaced. -/
theorem upsert_idempotent (store : List Pipeline.StoredEvent) (e : Pipeline.NormalizedEvent)
    (src src2 : String) (h : Pipeline.findById store (Pipeline.identityOf e) = none) :
    (Pipeline.upsert store e src false).1 = true ∧
    Pipeline.findById (Pipeline.upsert store e src false).2 (Pipeline.identityOf e) =
      some ⟨Pipeline.identityOf e, src, e⟩ ∧
    (Pipeline.upsert (Pipeline.upsert store e src false).2 e src2 false).1 = false ∧
    Pipeline.countId (Pipeline.upsert (Pipeline.upsert store e src false).2 e src2 false).2
      (Pipeline.identityOf e) = 1 ∧
    Pipeline.findById (Pipeline.upsert (Pipeline.upsert store e src false).2 e src2 false).2
      (Pipeline.identityOf e) = some ⟨Pipeline.identityOf e, src, e⟩ ∧
    (Pipeline.upsert (Pipeline.upsert store e src false).2 e src2 true).1 = false ∧
    Pipeline.findById (Pipeline.upsert (Pipeline.upsert store e src false).2 e src2 true).2
      (Pipeline.identityOf e) = some ⟨Pipeline.identityOf e, src2, e⟩ := by
  have h1 : Pipeline.upsert store e src false =
      (true, store ++ [⟨Pipeline.identityOf e, src, e⟩]) := by
    simp only [Pipeline.upsert, h]
  have hstore : ∀ x ∈ store, ¬ x.id = Pipeline.identityOf e :=
    (findById_eq_none_iff store (Pipeline.identityOf e)).1 h
  have hfind2 : ∀ u : Pipeline.StoredEvent, u.id = Pipeline.identityOf e →
      Pipeline.findById (store ++ [u]) (Pipeline.identityOf e) = some u := by
    intro u hu
    rw [findById_append_of_none _ _ _ h]
    unfold Pipeline.findById
    simp [List.find?, hu]
  have hf1 : Pipeline.findById (store ++ [⟨Pipeline.identityOf e, src, e⟩])
      (Pipeline.identityOf e) = some ⟨Pipeline.identityOf e, src, e⟩ := hfind2 _ rfl
  have h2 : ∀ (s2 : String) (b : Bool),
      Pipeline.upsert (store ++ [⟨Pipeline.identityOf e, src, e⟩]) e s2 b =
        (false, store ++ [⟨Pipeline.identityOf e, if b then s2 else src, e⟩]) := by
    intro s2 b
    simp only [Pipeline.upsert, hf1, overwriteNonIdentity_self]
    rw [List.map_append, map_ite_id_of_not_mem store _ _ hstore]
    simp
  have hcount : ∀ u : Pipeline.StoredEvent, u.id = Pipeline.identityOf e →
      Pipeline.countId (store ++ [u]) (Pipeline.identityOf e) = 1 := by
    intro u hu
    unfold Pipeline.countId
    rw [List.countP_append]
    have h0 : store.countP (fun r => decide (r.id = Pipeline.identityOf e)) = 0 :=
      List.countP_eq_zero.2 (by simpa using hstore)
    rw [h0]
    simp [List.countP_cons, hu]
  refine ⟨by rw [h1], by rw [h1]; exact hf1, ?_, ?_, ?_, ?_, ?_⟩
  · rw [h1, h2 src2 false]
  · rw [h1, h2 src2 false]
    exact hcount _ rfl
  · rw [h1, h2 src2 false]
    exact hfind2 _ rfl
  · rw [h1, h2 src2 true]
  · rw [h1, h2 src2 true]
    exact hfind2 _ rfl

/-- Witness for C2: inserting a concrete event into the empty store and
resubmitting it. -/
theorem upsert_idempotent_witness :
    (Pipeline.upsert [] sampleEvent "run-1" false).1 = true ∧
    (Pipeline.upsert (Pipeline.upsert [] sampleEvent "run-1" false).2 sampleEvent "run-2"
        false).1 = false ∧
    Pipeline.countId
      (Pipeline.upsert (Pipeline.upsert [] sampleEvent "run-1" false).2 sampleEvent "run-2"
          false).2 (Pipeline.identityOf sampleEvent) = 1 ∧
    Pipeline.findById
      (Pipeline.upsert (Pipeline.upsert [] sampleEvent "run-1" false).2 sampleEvent "run-2"
          false).2 (Pipeline.identityOf sampleEvent) =
      some ⟨Pipeline.identityOf sampleEvent, "run-1", sampleEvent⟩ ∧
    Pipeline.findById
      (Pipeline.upsert (Pipeline.upsert [] sampleEvent "run-1" false).2 sampleEvent "run-2"
          true).2 (Pipeline.identityOf sampleEvent) =
      some ⟨Pipeline.identityOf sampleEvent, "run-2", sampleEvent⟩ := by
  have h := upsert_idempotent [] sampleEvent "run-1" "run-2" rfl
  exact ⟨h.1, h.2.2.1, h.2.2.2.1, h.2.2.2.2.1, h.2.2.2.2.2.2⟩

/-- C3.  Category normalization: the result always lies in the fixed
enumeration; an absent value is coerced to `outdoor`; a present value is
lower-cased and kept when the lower-cased form is in the enumeration,
otherwise coerced to `outdoor` — never dropped. -/
theorem normalizeCategory_coercion (c : Option String) :
    Api.normalizeCategory c ∈ Api.validCategories ∧
    (c = none → Api.normalizeCategory c = "outdoor") ∧
    (∀ s, c = some s → toLowerCase s ∈ Api.validCategories →
      Api.normalizeCategory c = toLowerCase s) ∧
    (∀ s, c = some s → toLowerCase s ∉ Api.validCategories →
      Api.normalizeCategory c = "outdoor") := by
  refine ⟨?_, ?_, ?_, ?_⟩
  · cases c with
    | none => decide
    | some s =>
        by_cases h0 : s = ""
        · subst h0; decide
        · by_cases h1 : toLowerCase s ∈ Api.validCategories
          · simp [Api.normalizeCategory, h0, h1]
          · simp [Api.normalizeCategory, h0, h1]
            decide
  · intro h; subst h; rfl
  · intro s hs h1
    subst hs
    have h0 : s ≠ "" := by
      intro h0
      subst h0
      exact absurd h1 (by decide)
    simp [Api.normalizeCategory, h0, h1]
  · intro s hs h1
    subst hs
    by_cases h0 : s = ""
    · subst h0; rfl
    · simp [Api.normalizeCategory, h0, h1]

/-- Witness for C3: an unknown category is coerced to `outdoor`, a known
category in different casing is lower-cased and kept. -/
theorem normalizeCategory_coercion_witness :
    Api.normalizeCategory (some "PuppetShow") = "outdoor" ∧
    Api.normalizeCategory (some "MUSIC") = "music" := by
  refine ⟨(normalizeCategory_coercion (some "PuppetShow")).2.2.2 "PuppetShow" rfl (by decide), ?_⟩
  have h := (normalizeCategory_coercion (some "MUSIC")).2.2.1 "MUSIC" rfl (by decide)
  simpa using h

/-- C4 counterexample: `toEvent` does not represent absent optional
free-text fields by one explicit unknown marker — an absent description
becomes the empty string while an absent age suitability becomes the
visible placeholder `k.A.` and an absent location name the visible
placeholder `Unbekannter Ort`; and an empty-string description is passed
through, not converted. -/
theorem toEvent_unknown_marker_counterexample :
    (Api.toEvent apiEventAbsentFields).description = "" ∧
    (Api.toEvent apiEventAbsentFields).ageSuitability = "k.A." ∧
    (Api.toEvent apiEventAbsentFields).location.name = "Unbekannter Ort" ∧
    (Api.toEvent apiEventAbsentFields).description ≠
      (Api.toEvent apiEventAbsentFields).ageSuitability ∧
    (Api.toEvent apiEventEmptyDescription).description = "" := by
  exact ⟨rfl, rfl, rfl, by decide, rfl⟩

/-- C4 as amended: absent optional free-text fields receive fixed
per-field fallback strings — empty string for description and address,
`Unbekannter Ort` for the location name, `k.A.` for age suitability and
price — and present strings, including empty ones, are passed through
unchanged. -/
theorem toEvent_field_fallbacks (e : Api.ApiEvent) :
    ((e.description = none → (Api.toEvent e).description = "") ∧
      ∀ s, e.description = some s → (Api.toEvent e).description = s) ∧
    ((e.location_name = none → (Api.toEvent e).location.name = "Unbekannter Ort") ∧
      ∀ s, e.location_name = some s → (Api.toEvent e).location.name = s) ∧
    ((e.location_address = none → (Api.toEvent e).location.address = "") ∧
      ∀ s, e.location_address = some s → (Api.toEvent e).location.address = s) ∧
    ((e.age_suitability = none → (Api.toEvent e).ageSuitability = "k.A.") ∧
      ∀ s, e.age_suitability = some s → (Api.toEvent e).ageSuitability = s) ∧
    ((e.price_info = none → (Api.toEvent e).priceInfo = "k.A.") ∧
      ∀ s, e.price_info = some s → (Api.toEvent e).priceInfo = s) := by
  refine ⟨⟨?_, ?_⟩, ⟨?_, ?_⟩, ⟨?_, ?_⟩, ⟨?_, ?_⟩, ⟨?_, ?_⟩⟩ <;>
    first
      | (intro h; simp [Api.toEvent, h])
      | (intro s h; simp [Api.toEvent, h])

/-- Witness for C4's amended statement at concrete payloads. -/
theorem toEvent_field_fallbacks_witness :
    (Api.toEvent apiEventAbsentFields).description = "" ∧
    (Api.toEvent apiEventAbsentFields).ageSuitability = "k.A." ∧
    (Api.toEvent apiEventEmptyDescription).description = "" :=
  ⟨(toEvent_field_fallbacks apiEventAbsentFields).1.1 rfl,
   (toEvent_field_fallbacks apiEventAbsentFields).2.2.2.1.1 rfl,
   (toEvent_field_fallbacks apiEventEmptyDescription).1.2 "" rfl⟩

/-- C5 counterexample: an empty-string region is not defaulted — `toEvent`
passes it through, so the resulting region is `""`, not `hamburg`. -/
theorem toEvent_region_counterexample :
    (Api.toEvent apiEventEmptyRegion).region = "" ∧
    (Api.toEvent apiEventEmptyRegion).region ≠ "hamburg" := by
  exact ⟨rfl, by decide⟩

/-- C5 as amended: the region defaults to `hamburg` only when the field is
absent or null; any present string — including an empty or whitespace-only
one — is passed through unchanged. -/
theorem toEvent_region_default (e : Api.ApiEvent) :
    (e.region = none → (Api.toEvent e).region = "hamburg") ∧
    (∀ s, e.region = some s → (Api.toEvent e).region = s) := by
  constructor
  · intro h; simp [Api.toEvent, h]
  · intro s h; simp [Api.toEvent, h]

/-- Witness for C5's amended statement at concrete payloads. -/
theorem toEvent_region_default_witness :
    (Api.toEvent apiEventNoRegion).region = "hamburg" ∧
    (Api.toEvent apiEventEmptyRegion).region = "" :=
  ⟨(toEvent_region_default apiEventNoRegion).1 rfl,
   (toEvent_region_default apiEventEmptyRegion).2 "" rfl⟩

/-- C6.  Required-field rejection: a candidate with a missing or
trim-empty title fails with `missing_title`; with a title but a missing
or unparseable timezone-aware start date it fails with
`unparseable_date`; with a title and a parsed date but a non-boolean
indoor flag it fails with `missing_indoor_flag`; and in a batch the
failed candidates are excluded from the saved count while every
candidate is still processed — saved counts exactly the validating
candidates and each drop is recorded with its reason. -/
theorem validate_required_fields :
    (∀ c : Pipeline.RawCandidate,
        (c.title = none ∨ ∃ t, c.title = some t ∧ trimString t = "") →
        Pipeline.validate c = .failed "missing_title") ∧
    (∀ c : Pipeline.RawCandidate, ∀ t, c.title = some t → trimString t ≠ "" →
        c.date_start.bind Pipeline.parseIsoTimestamp = none →
        Pipeline.validate c = .failed "unparseable_date") ∧
    (∀ c : Pipeline.RawCandidate, ∀ t, c.title = some t → trimString t ≠ "" →
        ∀ ts, c.date_start.bind Pipeline.parseIsoTimestamp = some ts →
        (∀ b, c.is_indoor ≠ .jbool b) →
        Pipeline.validate c = .failed "missing_indoor_flag") ∧
    (∀ (store : List Pipeline.StoredEvent) (src : String)
        (cs : List Pipeline.RawCandidate),
        (Pipeline.processBatch store src cs).found = cs.length ∧
        (Pipeline.processBatch store src cs).saved =
          (cs.filter fun c => (Pipeline.validate c).isOk).length ∧
        (Pipeline.processBatch store src cs).droppedValidation =
          (cs.filter fun c => !(Pipeline.validate c).isOk).length ∧
        (Pipeline.processBatch store src cs).dropReasons =
          cs.filterMap fun c => (Pipeline.validate c).reason?) := by
  refine ⟨?_, ?_, ?_, ?_⟩
  · intro c h
    rcases h with h | ⟨t, ht, htr⟩
    · simp [Pipeline.validate, h]
    · simp [Pipeline.validate, ht, htr]
  · intro c t ht htr hd
    simp [Pipeline.validate, ht, htr, hd]
  · intro c t ht htr ts hts hnb
    cases hi : c.is_indoor with
    | jbool b => exact absurd hi (hnb b)
    | jnull => simp [Pipeline.validate, ht, htr, hts, hi]
    | jstr s2 => simp [Pipeline.validate, ht, htr, hts, hi]
    | jnum n => simp [Pipeline.validate, ht, htr, hts, hi]
  · intro store src cs
    have h := foldl_batchStep_counts src cs
      { found := cs.length
        normalized := 0
        droppedValidation := 0
        saved := 0
        newCount := 0
        existingCount := 0
        dropReasons := []
        store := store }
    unfold Pipeline.processBatch
    refine ⟨h.1, ?_, ?_, ?_⟩
    · rw [h.2.1]
      simp
    · rw [h.2.2.1]
      simp
    · rw [h.2.2.2]
      simp

/-- Witness for C6: each rejection reason at a concrete candidate, and a
concrete three-candidate batch in which the two invalid candidates are
dropped with their reasons while the valid one is saved. -/
theorem validate_required_fields_witness :
    Pipeline.validate candidateNoTitle = .failed "missing_title" ∧
    Pipeline.validate candidateBadDate = .failed "unparseable_date" ∧
    Pipeline.validate candidateNoBool = .failed "missing_indoor_flag" ∧
    (Pipeline.processBatch [] "src-1"
        [candidateGood, candidateNoTitle, candidateBadDate]).found = 3 ∧
    (Pipeline.processBatch [] "src-1"
        [candidateGood, candidateNoTitle, candidateBadDate]).saved = 1 ∧
    (Pipeline.processBatch [] "src-1"
        [candidateGood, candidateNoTitle, candidateBadDate]).droppedValidation = 2 ∧
    (Pipeline.processBatch [] "src-1"
        [candidateGood, candidateNoTitle, candidateBadDate]).dropReasons =
      ["missing_title", "unparseable_date"] := by
  have h := validate_required_fields
  have hbatch := h.2.2.2 [] "src-1" [candidateGood, candidateNoTitle, candidateBadDate]
  refine ⟨h.1 candidateNoTitle (Or.inl rfl),
          h.2.1 candidateBadDate "Kinderkonzert" rfl (by decide) rfl,
          h.2.2.1 candidateNoBool "Kinderkonzert" rfl (by decide)
            ⟨2026, 2, 14, 11, 0, 0, 60⟩ (by decide) (by decide), ?_, ?_, ?_, ?_⟩
  · rw [hbatch.1]
    rfl
  · rw [hbatch.2.1]; decide
  · rw [hbatch.2.2.1]; decide
  · rw [hbatch.2.2.2]; decide

/-- C7.  The discovery run report: the result of mapping a backend
response carries the success flag, the found / normalized / new /
existing / saved counts, validation and persistence drops as separate
counts, the issue-reason histogram, the grounding URLs, the model
identifier — and, when the per-stage block is absent, every stage counter
falls back to the corresponding top-level count, the issue and URL
counters to the lengths of the top-level lists, and the geocoded count to
zero. -/
theorem discovery_run_report (data : Api.RawDiscoveryResponse) :
    (Api.mapDiscoveryResponse data).success = data.success ∧
    (Api.mapDiscoveryResponse data).eventsFound = data.events_found ∧
    (Api.mapDiscoveryResponse data).eventsNormalized = data.events_normalized ∧
    (Api.mapDiscoveryResponse data).eventsNew = data.events_new ∧
    (Api.mapDiscoveryResponse data).eventsExisting = data.events_existing ∧
    (Api.mapDiscoveryResponse data).eventsSaved = data.events_saved ∧
    (Api.mapDiscoveryResponse data).eventsDropped = data.events_dropped ∧
    (Api.mapDiscoveryResponse data).eventsDroppedValidation = data.events_dropped_validation ∧
    (Api.mapDiscoveryResponse data).eventsDroppedPersistence = data.events_dropped_persistence ∧
    (Api.mapDiscoveryResponse data).issueSummary = data.issue_summary.getD [] ∧
    (Api.mapDiscoveryResponse data).groundingUrls = data.grounding_urls.getD [] ∧
    (Api.mapDiscoveryResponse data).model = data.model ∧
    (data.stages = none →
      (Api.mapDiscoveryResponse data).stages.search.eventsFoundRaw = data.events_found ∧
      (Api.mapDiscoveryResponse data).stages.search.groundingUrlCount =
        (data.grounding_urls.getD []).length ∧
      (Api.mapDiscoveryResponse data).stages.search.model = data.model ∧
      (Api.mapDiscoveryResponse data).stages.normalization.eventsNormalized =
        data.events_normalized ∧
      (Api.mapDiscoveryResponse data).stages.normalization.eventsDroppedValidation =
        data.events_dropped_validation ∧
      (Api.mapDiscoveryResponse data).stages.normalization.issuesCount =
        (data.issues.getD []).length ∧
      (Api.mapDiscoveryResponse data).stages.persistence.eventsSaved = data.events_saved ∧
      (Api.mapDiscoveryResponse data).stages.persistence.eventsNew = data.events_new ∧
      (Api.mapDiscoveryResponse data).stages.persistence.eventsExisting =
        data.events_existing ∧
      (Api.mapDiscoveryResponse data).stages.persistence.eventsDroppedPersistence =
        data.events_dropped_persistence ∧
      (Api.mapDiscoveryResponse data).stages.geocoding.eventsGeocoded = 0) := by
  refine ⟨rfl, rfl, rfl, rfl, rfl, rfl, rfl, rfl, rfl, rfl, rfl, rfl, ?_⟩
  intro hs
  refine ⟨?_, ?_, ?_, ?_, ?_, ?_, ?_, ?_, ?_, ?_, ?_⟩ <;>
    simp [Api.mapDiscoveryResponse, hs] <;>
    cases data.grounding_urls <;> cases data.issues <;> simp

/-- Witness for C7 on a concrete response without a stage block. -/
theorem discovery_run_report_witness :
    (Api.mapDiscoveryResponse discoveryResponseNoStages).stages.search.eventsFoundRaw = 10 ∧
    (Api.mapDiscoveryResponse discoveryResponseNoStages).stages.search.groundingUrlCount = 2 ∧
    (Api.mapDiscoveryResponse
        discoveryResponseNoStages).stages.normalization.eventsDroppedValidation = 2 ∧
    (Api.mapDiscoveryResponse
        discoveryResponseNoStages).stages.persistence.eventsDroppedPersistence = 1 ∧
    (Api.mapDiscoveryResponse discoveryResponseNoStages).stages.geocoding.eventsGeocoded = 0 := by
  have h := (discovery_run_report discoveryResponseNoStages).2.2.2.2.2.2.2.2.2.2.2.2 rfl
  exact ⟨h.1, h.2.1, h.2.2.2.2.1, h.2.2.2.2.2.2.2.2.2.1, h.2.2.2.2.2.2.2.2.2.2⟩

/-- C8.  The grounded-search request body contains exactly the query, the
region (defaulting to `hamburg`), the lookahead window in days (defaulting
to 14), the maximum result count (defaulting to 30) and the optional model
override (null when omitted). -/
theorem discovery_request_defaults (p : Api.GeminiDiscoveryPayload) :
    (Api.buildGeminiRequestBody p).query = p.query ∧
    ((p.region = none → (Api.buildGeminiRequestBody p).region = "hamburg") ∧
      ∀ r, p.region = some r → (Api.buildGeminiRequestBody p).region = r) ∧
    ((p.daysAhead = none → (Api.buildGeminiRequestBody p).days_ahead = 14) ∧
      ∀ d, p.daysAhead = some d → (Api.buildGeminiRequestBody p).days_ahead = d) ∧
    ((p.limit = none → (Api.buildGeminiRequestBody p).limit = 30) ∧
      ∀ n, p.limit = some n → (Api.buildGeminiRequestBody p).limit = n) ∧
    ((p.model = none → (Api.buildGeminiRequestBody p).model = none) ∧
      ∀ m, p.model = some m → (Api.buildGeminiRequestBody p).model = some m) := by
  refine ⟨rfl, ⟨?_, ?_⟩, ⟨?_, ?_⟩, ⟨?_, ?_⟩, ⟨?_, ?_⟩⟩ <;>
    first
      | (intro h; simp [Api.buildGeminiRequestBody, h])
      | (intro x h; simp [Api.buildGeminiRequestBody, h])

/-- Witness for C8 at a bare and at a fully-specified payload. -/
theorem discovery_request_defaults_witness :
    (Api.buildGeminiRequestBody discoveryPayloadBare).region = "hamburg" ∧
    (Api.buildGeminiRequestBody discoveryPayloadBare).days_ahead = 14 ∧
    (Api.buildGeminiRequestBody discoveryPayloadBare).limit = 30 ∧
    (Api.buildGeminiRequestBody discoveryPayloadBare).model = none ∧
    (Api.buildGeminiRequestBody discoveryPayloadFull).region = "altona" :=
  ⟨(discovery_request_defaults discoveryPayloadBare).2.1.1 rfl,
   (discovery_request_defaults discoveryPayloadBare).2.2.1.1 rfl,
   (discovery_request_defaults discoveryPayloadBare).2.2.2.1.1 rfl,
   (discovery_request_defaults discoveryPayloadBare).2.2.2.2.1 rfl,
   (discovery_request_defaults discoveryPayloadFull).2.1.2 "altona" rfl⟩

/-- C9.  `buildQuery` omits every entry whose value is `undefined`, `null`
or the empty string (removing the blank entries does not change the
result), returns the empty string exactly when no entries survive, and
otherwise returns `?` followed by the serialized surviving pairs — all of
which carry non-blank values. -/
theorem buildQuery_omits_blank (params : List (String × Api.JsVal)) :
    Api.buildQuery params = Api.buildQuery (params.filter fun p => !p.2.isSkipped) ∧
    (Api.buildQuery params = "" ↔ params.filter (fun p => !p.2.isSkipped) = []) ∧
    (params.filter (fun p => !p.2.isSkipped) ≠ [] →
      Api.buildQuery params =
        "?" ++ Api.joinPairs (params.filter fun p => !p.2.isSkipped)) ∧
    (∀ p ∈ params.filter fun p => !p.2.isSkipped, p.2.isSkipped = false) := by
  have hfilter : ((params.filter fun p => !p.2.isSkipped).filter fun p => !p.2.isSkipped) =
      params.filter fun p => !p.2.isSkipped := by
    rw [List.filter_filter]
    simp [Bool.and_self]
  have hshape : (params.filter fun p => !p.2.isSkipped) ≠ [] →
      Api.buildQuery params =
        "?" ++ Api.joinPairs (params.filter fun p => !p.2.isSkipped) := by
    intro hne
    unfold Api.buildQuery
    rw [if_neg (joinPairs_ne_empty _ hne)]
  refine ⟨?_, ⟨?_, ?_⟩, hshape, ?_⟩
  · simp only [Api.buildQuery]
    rw [hfilter]
  · intro h
    by_contra hne
    rw [hshape hne] at h
    have h1 := congrArg String.length h
    rw [String.length_append] at h1
    have h2 : ("?" : String).length = 1 := rfl
    have h3 : ("" : String).length = 0 := rfl
    omega
  · intro h
    simp [Api.buildQuery, h, Api.joinPairs]
  · intro p hp
    have := List.of_mem_filter hp
    simpa using this

/-- Witness for C9: a concrete parameter record with blank-valued entries
serializes to the surviving pairs only. -/
theorem buildQuery_omits_blank_witness :
    Api.buildQuery queryParamsExample =
      "?" ++ Api.joinPairs (queryParamsExample.filter fun p => !p.2.isSkipped) ∧
    Api.buildQuery queryParamsExample = "?region=hamburg&limit=5" :=
  ⟨(buildQuery_omits_blank queryParamsExample).2.2.1 (by decide), by decide⟩

/-- C10.  `normalizeUrl` is total: blank input yields the empty string;
every result is either the empty string (blank input, or input the URL
constructor rejects even after scheme-prefixing) or the serialization of
a parsed absolute URL whose scheme is `http` or `https`; and an input
without an `http(s)://` scheme is parsed after prefixing `https://`. -/
theorem normalizeUrl_total_scheme (s : String) :
    (trimString s = "" → Sources.normalizeUrl s = "") ∧
    (Sources.normalizeUrl s = "" ∨
      ∃ u : Sources.JsUrl,
        Sources.normalizeUrl s = Sources.jsUrlToString u ∧
          (u.scheme = "http" ∨ u.scheme = "https")) ∧
    (trimString s ≠ "" → Sources.matchesHttpScheme (trimString s).data = false →
      Sources.normalizeUrl s =
        match Sources.jsUrlParse ("https://" ++ trimString s) with
        | some u => Sources.jsUrlToString u
        | none => "") := by
  refine ⟨?_, ?_, ?_⟩
  · intro h
    simp [Sources.normalizeUrl, h]
  · by_cases h0 : trimString s = ""
    · left
      simp [Sources.normalizeUrl, h0]
    · by_cases hm : Sources.matchesHttpScheme (trimString s).data
      · cases hp : Sources.jsUrlParse (trimString s) with
        | none =>
            left
            simp [Sources.normalizeUrl, h0, hm, hp]
        | some u =>
            right
            refine ⟨u, ?_, jsUrlParse_scheme_of_matches _ u hm hp⟩
            simp [Sources.normalizeUrl, h0, hm, hp]
      · cases hp : Sources.jsUrlParse ("https://" ++ trimString s) with
        | none =>
            left
            simp [Sources.normalizeUrl, h0, hm, hp]
        | some u =>
            right
            have hm2 : Sources.matchesHttpScheme ("https://" ++ trimString s).data = true := rfl
            refine ⟨u, ?_, jsUrlParse_scheme_of_matches _ u hm2 hp⟩
            simp [Sources.normalizeUrl, h0, hm, hp]
  · intro h0 hm
    simp [Sources.normalizeUrl, h0, hm]

/-- Witness for C10: blank input maps to the empty string, and a trimmed
scheme-less input is parsed after `https://`-prefixing, yielding an
absolute `https` URL. -/
theorem normalizeUrl_total_scheme_witness :
    Sources.normalizeUrl "   " = "" ∧
    Sources.normalizeUrl "  example.com/path " =
      (match Sources.jsUrlParse ("https://" ++ trimString "  example.com/path ") with
       | some u => Sources.jsUrlToString u
       | none => "") ∧
    Sources.normalizeUrl "  example.com/path " = "https://example.com/path" :=
  ⟨(normalizeUrl_total_scheme "   ").1 (by decide),
   (normalizeUrl_total_scheme "  example.com/path ").2.2 (by decide) (by decide),
   by decide⟩

end Ahoi
